import Mathlib

/-!
Shallow embedding of the face-recognition attendance service (`src/app.py`).

External libraries (PIL, numpy, face_recognition) are modelled as parameters or
as already-decoded data:
* a decoded grayscale frame is a matrix of pixel luminance values (`Gray`);
  a frame whose base64 or image decode raises is `none`;
* `extract : String -> Option (List Emb)` stands for loading a photo file and
  running `face_recognition.face_encodings` on it: `none` models an exception
  during load/encode, `some []` models "no face found", `some (e :: _)` the
  detected encodings in order;
* `dist : Emb -> Emb -> Rat` stands for `face_recognition.face_distance`
  against one gallery encoding (an external library function; the matching
  logic in `app.py` only compares and selects on the returned values);
* `faceLib` is the module flag `FACE_LIB_AVAILABLE`;
* wall-clock `datetime.now()` is passed in as `Now`.

Machine floats are modelled as rationals: the matcher only ever compares
distances with `<`, so the selection logic is order-theoretic.
-/

/-- A face embedding vector (`numpy` 1-d array in the source). -/
abbrev Emb := List ℚ

/-- A decoded grayscale frame: rows of pixel luminance values.
`np.array(im)` for `im = Image...convert("L")`; pixels are cast to int16
before subtraction in `frames_have_motion`, so we use `Int`. -/
abbrev Gray := List (List Int)

/-- The module-level `ENCODING_CACHE` dict `{abs_path: np.array}`, modelled as
an association list (later bindings shadow earlier ones, like dict update). -/
abbrev Cache := List (String × Emb)

/-- A row of the `photos` table as selected at app.py line 609:
`SELECT id, student_id, photo_path FROM photos`. -/
structure PhotoRow where
  pid : Nat
  student_id : Nat
  photo_path : String
deriving DecidableEq, Repr, Inhabited

/-- A row inserted into the `attendance` table (app.py lines 642-643). -/
structure AttRow where
  student_id : Nat
  date : String
  time_in : String
  status : String
  created_at : String
deriving DecidableEq, Repr

/-- One element of the `matches` list built at app.py line 647. -/
structure MatchEntry where
  student_id : Nat
  name : String
  roll_no : String
  photo_path : String
  distance : ℚ
deriving DecidableEq, Repr

/-- The pieces of `datetime.datetime.now()` used by `api_mark_attendance`:
`strftime("%Y-%m-%d")`, `strftime("%H:%M:%S")` and `isoformat()`. -/
structure Now where
  date : String
  time_in : String
  iso : String
deriving DecidableEq, Repr

/-- One element of the submitted `frames` list, carrying what the external
decoders would produce from its base64 payload: `gray` is the result of
`Image.open(...).convert("L")` (`none` = decode exception, caught inside
`frames_have_motion`), `rgb_ok` says whether `Image.open(...).convert("RGB")`
succeeds (used for the middle frame only), and `faceEncs` is what
`face_recognition.face_encodings` finds in the decoded RGB image. -/
structure RawFrame where
  gray : Option Gray
  rgb_ok : Bool
  faceEncs : List Emb
deriving DecidableEq, Repr, Inhabited

/-- The single `image` input variant (no liveness check possible). -/
structure RawImage where
  rgb_ok : Bool
  faceEncs : List Emb
deriving DecidableEq, Repr

/-- The distinct JSON responses `api_mark_attendance` can return.
Constructors correspond, in source order, to: the 500 at line 565, the 400 at
line 599, the 403 at line 580, the 500 at line 588, the 400 at line 597, the
no-faces 200 at line 604, and the final 200 at line 649. -/
inductive MarkResp where
  | faceLibUnavailable
  | noInput
  | spoofRejected
  | livenessError
  | imageDecodeError
  | noFaces
  | ok (matched : List MatchEntry) (liveness_checked : Bool)
deriving DecidableEq, Repr

/-- The JSON keys of each response dict passed to `jsonify` in
`api_mark_attendance` (read off the literal dicts in the source). -/
def MarkResp.keys : MarkResp → List String
  | .faceLibUnavailable => ["success", "message"]
  | .noInput => ["success", "message"]
  | .spoofRejected => ["success", "message"]
  | .livenessError => ["success", "message"]
  | .imageDecodeError => ["success", "message"]
  | .noFaces => ["success", "matched", "message"]
  | .ok _ _ => ["success", "matched", "liveness_checked"]

/-- Dict membership test `path in ENCODING_CACHE` followed by read. -/
def cacheLookup (cache : Cache) (k : String) : Option Emb :=
  (cache.find? fun kv => kv.1 == k).map Prod.snd

/-- Dict write `ENCODING_CACHE[path] = enc`. -/
def cacheInsert (cache : Cache) (k : String) (v : Emb) : Cache :=
  (k, v) :: cache

/-- Dict removal `ENCODING_CACHE.pop(k, None)`. -/
def cacheEvict (cache : Cache) (k : String) : Cache :=
  cache.filter fun kv => kv.1 != k

/-- app.py lines 108-128, `compute_face_encoding_from_file`: return the cached
encoding if present; otherwise load the file and run the extractor; on success
(at least one face) cache and return the FIRST encoding; on an exception or
when no face is found, return `None` WITHOUT caching. Returns the result
together with the updated cache. -/
def compute_face_encoding_from_file (faceLib : Bool)
    (extract : String → Option (List Emb))
    (cache : Cache) (path : String) : Option Emb × Cache :=
  if faceLib = false then (none, cache)
  else
    match cacheLookup cache path with
    | some enc => (some enc, cache)
    | none =>
      match extract path with
      | none => (none, cache)
      | some [] => (none, cache)
      | some (enc :: _) => (some enc, cacheInsert cache path enc)

/-- app.py lines 613-619: the loop over all `photos` rows building
`known_encodings` and `known_meta`, threading the encoding cache. -/
def build_gallery (faceLib : Bool) (extract : String → Option (List Emb)) :
    List PhotoRow → Cache → List (PhotoRow × Emb) × Cache
  | [], cache => ([], cache)
  | p :: ps, cache =>
    let r := compute_face_encoding_from_file faceLib extract cache p.photo_path
    let rest := build_gallery faceLib extract ps r.2
    match r.1 with
    | some enc => ((p, enc) :: rest.1, rest.2)
    | none => rest

/-- Running state of `np.argmin`: best (index, value) so far and the index of
the next element; the best is replaced only on a STRICTLY smaller value, so
the first occurrence of the minimum wins, as `np.argmin` documents. -/
def argminGo : Nat × ℚ → Nat → List ℚ → Nat × ℚ
  | best, _, [] => best
  | best, i, x :: xs =>
    if x < best.2 then argminGo (i, x) (i + 1) xs else argminGo best (i + 1) xs

/-- `int(np.argmin(distances))` (app.py line 626): index of the first
occurrence of the minimum; 0 on the empty list (never hit by the caller). -/
def argmin : List ℚ → Nat
  | [] => 0
  | x :: xs => (argminGo (0, x) 1 xs).1

/-- Pixels of one row pair whose absolute difference strictly exceeds
`diff_threshold` (part of `(diff > diff_threshold).sum()` at line 185). -/
def rowDiffCount (diff_threshold : Int) (ra rb : List Int) : Nat :=
  (List.zipWith (fun x y => if diff_threshold < |x - y| then 1 else 0) ra rb).sum

/-- app.py lines 181-185: `cnt = int((np.abs(a - b) > diff_threshold).sum())`
for one consecutive frame pair. -/
def motionCount (diff_threshold : Int) (a b : Gray) : Nat :=
  (List.zipWith (rowDiffCount diff_threshold) a b).sum

/-- app.py lines 180-188: the loop over consecutive frame pairs; returns true
as soon as some pair has strictly more than `threshold_pixels` changed
pixels, false after the loop otherwise. -/
def anyPairMotion (threshold_pixels : Nat) (diff_threshold : Int) : List Gray → Bool
  | a :: b :: rest =>
    if threshold_pixels < motionCount diff_threshold a b then true
    else anyPairMotion threshold_pixels diff_threshold (b :: rest)
  | _ => false

/-- app.py lines 169-178: the decode loop; the `try` around each decode turns
any failure into an early `return False`, so the gray frame list is built only
when every frame decodes. -/
def allSome : List (Option Gray) → Option (List Gray)
  | [] => some []
  | none :: _ => none
  | some g :: rest => (allSome rest).map (g :: ·)

/-- app.py lines 154-188, `frames_have_motion`: `False` for fewer than 2
frames; `False` if any frame fails to decode; otherwise true iff some
consecutive grayscale pair has strictly more than `threshold_pixels` pixels
whose absolute difference strictly exceeds `diff_threshold`.
The source defaults are `threshold_pixels=1000`, `diff_threshold=30`. -/
def frames_have_motion (frames : List (Option Gray))
    (threshold_pixels : Nat) (diff_threshold : Int) : Bool :=
  if frames.length < 2 then false
  else
    match allSome frames with
    | none => false
    | some gray_frames => anyPairMotion threshold_pixels diff_threshold gray_frames

/-- The acceptance threshold `0.50` of app.py line 629, as the exact rational
one half. It is spelled as a raw fraction in lowest terms (rather than `1/2`,
which is the same value) so that kernel evaluation of the comparison works on
concrete inputs; `MATCH_THRESHOLD_eq` below proves it equal to `1/2`. -/
def MATCH_THRESHOLD : ℚ := ⟨1, 2, by omega, Nat.coprime_one_left 2⟩

/-- app.py lines 622-647, the body of `for unk in unknown_encs`: skip when the
gallery is empty; otherwise take `np.argmin` of the distances to every known
encoding, and if the best distance is strictly below 0.50, look up the
student, build the attendance INSERT row and the match entry; else nothing. -/
def match_step (dist : Emb → Emb → ℚ) (students : Nat → Option (String × String))
    (now : Now) (known : List (PhotoRow × Emb)) (unk : Emb) :
    Option (MatchEntry × AttRow) :=
  if known.isEmpty then none
  else
    let distances := known.map fun ke => dist ke.2 unk
    let best_idx := argmin distances
    let best_distance := distances.getD best_idx 0
    if best_distance < MATCH_THRESHOLD then
      let meta := known.getD best_idx default
      let nr := (students meta.1.student_id).getD ("Unknown", "-")
      some (⟨meta.1.student_id, nr.1, nr.2, meta.1.photo_path, best_distance⟩,
            ⟨meta.1.student_id, now.date, now.time_in, "present", now.iso⟩)
    else none

/-- app.py lines 601-649: everything after a query image has been decoded.
If no face is found in it, the no-faces 200 is returned BEFORE the photos
table is read (cache untouched); otherwise the gallery is built through the
cache, each query encoding is matched independently, every successful match
appends one attendance row, and the final 200 carries the match list and the
`liveness_checked` flag. -/
def mark_phase (faceLib : Bool) (extract : String → Option (List Emb))
    (dist : Emb → Emb → ℚ) (students : Nat → Option (String × String))
    (photos : List PhotoRow) (now : Now) (cache : Cache) (att : List AttRow)
    (unknown_encs : List Emb) (liveness_checked : Bool) :
    MarkResp × List AttRow × Cache :=
  if unknown_encs.isEmpty then (MarkResp.noFaces, att, cache)
  else
    let g := build_gallery faceLib extract photos cache
    let results := unknown_encs.filterMap (match_step dist students now g.1)
    (MarkResp.ok (results.map Prod.fst) liveness_checked,
     att ++ results.map Prod.snd, g.2)

/-- app.py lines 554-649, `api_mark_attendance`. Input routing follows the
source exactly: a `frames` list with at least 2 entries takes the motion-check
path (403 when no motion, 500 when the middle frame fails to re-decode as RGB,
then matching on the middle frame `frames[len(frames)//2]`); any other input
falls to the `elif image_single` branch (single image, liveness skipped); with
neither, the 400 "Provide frames or image" rejection. Returns the response,
the attendance table (rows only ever appended) and the encoding cache. -/
def api_mark_attendance (faceLib : Bool) (extract : String → Option (List Emb))
    (dist : Emb → Emb → ℚ) (students : Nat → Option (String × String))
    (photos : List PhotoRow)
    (frames : Option (List RawFrame)) (image : Option RawImage)
    (cache : Cache) (att : List AttRow) (now : Now) :
    MarkResp × List AttRow × Cache :=
  if faceLib = false then (MarkResp.faceLibUnavailable, att, cache)
  else
    match frames with
    | some fs =>
      if 2 ≤ fs.length then
        if frames_have_motion (fs.map RawFrame.gray) 1000 30 = false then
          (MarkResp.spoofRejected, att, cache)
        else
          let mid := fs.getD (fs.length / 2) default
          if mid.rgb_ok = false then (MarkResp.livenessError, att, cache)
          else mark_phase faceLib extract dist students photos now cache att mid.faceEncs true
      else
        match image with
        | some img =>
          if img.rgb_ok = false then (MarkResp.imageDecodeError, att, cache)
          else mark_phase faceLib extract dist students photos now cache att img.faceEncs false
        | none => (MarkResp.noInput, att, cache)
    | none =>
      match image with
      | some img =>
        if img.rgb_ok = false then (MarkResp.imageDecodeError, att, cache)
        else mark_phase faceLib extract dist students photos now cache att img.faceEncs false
      | none => (MarkResp.noInput, att, cache)

/-- Effect of app.py lines 412-458, `api_replace_photo`, on the encoding
cache: the handler deletes the old photo FILES and their DB rows (lines
432-442) but performs no operation on `ENCODING_CACHE`; the only cache
activity is the background thread at line 453 warming the NEW photo path
via `compute_face_encoding_from_file`. The old paths keep their entries. -/
def api_replace_photo_cache (faceLib : Bool) (extract : String → Option (List Emb))
    (cache : Cache) (newPath : String) : Cache :=
  if faceLib = true then (compute_face_encoding_from_file faceLib extract cache newPath).2
  else cache

/-- Python string containment `needle in hay`, prefix test. -/
def listPrefixOf : List Char → List Char → Bool
  | [], _ => true
  | _ :: _, [] => false
  | a :: as, b :: bs => a == b && listPrefixOf as bs

/-- Python string containment `needle in hay`, substring test. -/
def listInfixOf (needle : List Char) : List Char → Bool
  | [] => listPrefixOf needle []
  | b :: bs => listPrefixOf needle (b :: bs) || listInfixOf needle bs

/-- Python `needle in hay` on strings. -/
def strContains (hay needle : String) : Bool := listInfixOf needle.toList hay.toList

/-- app.py lines 543-547, the cache-clearing loop of `api_delete_student`:
pop every cache key containing one of the substrings
`os.sep + str(student_id) + "_"`, `str(student_id) + "."`,
`str(student_id) + "_"` (with `os.sep = "/"` on the Linux deployment). -/
def api_delete_student_cache_clear (student_id : Nat) (cache : Cache) : Cache :=
  cache.filter fun kv =>
    !(strContains kv.1 ("/" ++ toString student_id ++ "_")
      || strContains kv.1 (toString student_id ++ ".")
      || strContains kv.1 (toString student_id ++ "_"))

/-! ## Basic lemmas -/

theorem MATCH_THRESHOLD_num : MATCH_THRESHOLD.num = 1 := rfl

theorem MATCH_THRESHOLD_den : MATCH_THRESHOLD.den = 2 := rfl

theorem MATCH_THRESHOLD_eq : MATCH_THRESHOLD = 1/2 := by
  have h := Rat.num_div_den MATCH_THRESHOLD
  rw [MATCH_THRESHOLD_num, MATCH_THRESHOLD_den] at h
  rw [← h]
  norm_num

/-! ## Lemmas about `argmin` (`np.argmin` selects the first minimum) -/

theorem argminGo_spec (xs : List ℚ) : ∀ (bi i : Nat) (bv : ℚ),
    (argminGo (bi, bv) i xs = (bi, bv) ∧ ∀ j, j < xs.length → bv ≤ xs.getD j 0)
    ∨ (∃ j, j < xs.length ∧ argminGo (bi, bv) i xs = (i + j, xs.getD j 0)
        ∧ xs.getD j 0 < bv
        ∧ (∀ k, k < xs.length → xs.getD j 0 ≤ xs.getD k 0)
        ∧ (∀ k, k < j → xs.getD j 0 < xs.getD k 0)) := by
  induction xs with
  | nil =>
    intro bi i bv
    left
    exact ⟨rfl, fun j hj => absurd hj (by simp)⟩
  | cons x xs ih =>
    intro bi i bv
    by_cases hx : x < bv
    · have hstep : argminGo (bi, bv) i (x :: xs) = argminGo (i, x) (i + 1) xs := by
        simp [argminGo, hx]
      rcases ih i (i + 1) x with ⟨heq, hmin⟩ | ⟨j, hj, heq, hlt, hmin, hfirst⟩
      · right
        refine ⟨0, by simp, ?_, by simpa using hx, ?_, ?_⟩
        · rw [hstep, heq]; simp
        · intro k hk
          match k with
          | 0 => simp
          | k + 1 =>
            simp only [List.getD_cons_zero, List.getD_cons_succ]
            exact hmin k (by simpa using hk)
        · intro k hk; exact absurd hk (Nat.not_lt_zero k)
      · right
        refine ⟨j + 1, by simp only [List.length_cons]; omega, ?_, ?_, ?_, ?_⟩
        · rw [hstep, heq]
          simp only [List.getD_cons_succ]
          congr 1
          omega
        · simp only [List.getD_cons_succ]
          exact lt_trans hlt hx
        · intro k hk
          match k with
          | 0 =>
            simp only [List.getD_cons_succ, List.getD_cons_zero]
            exact le_of_lt hlt
          | k + 1 =>
            simp only [List.getD_cons_succ]
            exact hmin k (by simpa using hk)
        · intro k hk
          match k with
          | 0 =>
            simp only [List.getD_cons_succ, List.getD_cons_zero]
            exact hlt
          | k + 1 =>
            simp only [List.getD_cons_succ]
            exact hfirst k (by omega)
    · have hstep : argminGo (bi, bv) i (x :: xs) = argminGo (bi, bv) (i + 1) xs := by
        simp [argminGo, hx]
      have hbvx : bv ≤ x := le_of_not_lt hx
      rcases ih bi (i + 1) bv with ⟨heq, hmin⟩ | ⟨j, hj, heq, hlt, hmin, hfirst⟩
      · left
        refine ⟨by rw [hstep, heq], ?_⟩
        intro k hk
        match k with
        | 0 => simpa using hbvx
        | k + 1 =>
          simp only [List.getD_cons_succ]
          exact hmin k (by simpa using hk)
      · right
        refine ⟨j + 1, by simp only [List.length_cons]; omega, ?_, ?_, ?_, ?_⟩
        · rw [hstep, heq]
          simp only [List.getD_cons_succ]
          congr 1
          omega
        · simp only [List.getD_cons_succ]
          exact hlt
        · intro k hk
          match k with
          | 0 =>
            simp only [List.getD_cons_succ, List.getD_cons_zero]
            exact le_of_lt (lt_of_lt_of_le hlt hbvx)
          | k + 1 =>
            simp only [List.getD_cons_succ]
            exact hmin k (by simpa using hk)
        · intro k hk
          match k with
          | 0 =>
            simp only [List.getD_cons_succ, List.getD_cons_zero]
            exact lt_of_lt_of_le hlt hbvx
          | k + 1 =>
            simp only [List.getD_cons_succ]
            exact hfirst k (by omega)

theorem argmin_spec (x : ℚ) (xs : List ℚ) :
    argmin (x :: xs) < (x :: xs).length
    ∧ (∀ j, j < (x :: xs).length →
        (x :: xs).getD (argmin (x :: xs)) 0 ≤ (x :: xs).getD j 0)
    ∧ (∀ k, k < argmin (x :: xs) →
        (x :: xs).getD (argmin (x :: xs)) 0 < (x :: xs).getD k 0) := by
  rcases argminGo_spec xs 0 1 x with ⟨heq, hmin⟩ | ⟨j, hj, heq, hlt, hmin, hfirst⟩
  · have ha : argmin (x :: xs) = 0 := by simp [argmin, heq]
    rw [ha]
    refine ⟨by simp, ?_, ?_⟩
    · intro k hk
      match k with
      | 0 => simp
      | k + 1 =>
        simp only [List.getD_cons_zero, List.getD_cons_succ]
        exact hmin k (by simpa using hk)
    · intro k hk; exact absurd hk (Nat.not_lt_zero k)
  · have ha : argmin (x :: xs) = 1 + j := by simp [argmin, heq]
    have hgd : (x :: xs).getD (1 + j) 0 = xs.getD j 0 := by
      have : 1 + j = j + 1 := by omega
      rw [this, List.getD_cons_succ]
    rw [ha, hgd]
    refine ⟨by simp only [List.length_cons]; omega, ?_, ?_⟩
    · intro k hk
      match k with
      | 0 =>
        simp only [List.getD_cons_zero]
        exact le_of_lt hlt
      | k + 1 =>
        simp only [List.getD_cons_succ]
        exact hmin k (by simpa using hk)
    · intro k hk
      match k with
      | 0 =>
        simp only [List.getD_cons_zero]
        exact hlt
      | k + 1 =>
        simp only [List.getD_cons_succ]
        exact hfirst k (by omega)

/-- C1: against a non-empty gallery, `api_mark_attendance` selects the entry
whose distance to the query is minimal (`np.argmin`), with the numerically
first index winning exact ties, and emits a match - carrying that entry's
student id and the distance - iff the minimum distance is strictly below
0.50. -/
theorem matcher_selects_first_min_and_thresholds
    (dist : Emb → Emb → ℚ) (students : Nat → Option (String × String)) (now : Now)
    (k0 : PhotoRow × Emb) (ks : List (PhotoRow × Emb)) (unk : Emb) :
    let known := k0 :: ks
    let ds := known.map fun ke => dist ke.2 unk
    let bi := argmin ds
    let bd := ds.getD bi 0
    let meta := known.getD bi default
    MATCH_THRESHOLD = 1/2
    ∧ bi < known.length
    ∧ (∀ j, j < known.length → bd ≤ ds.getD j 0)
    ∧ (∀ k, k < bi → bd < ds.getD k 0)
    ∧ match_step dist students now known unk
        = (if bd < MATCH_THRESHOLD then
             some (⟨meta.1.student_id, ((students meta.1.student_id).getD ("Unknown", "-")).1,
                    ((students meta.1.student_id).getD ("Unknown", "-")).2,
                    meta.1.photo_path, bd⟩,
                   ⟨meta.1.student_id, now.date, now.time_in, "present", now.iso⟩)
           else none) := by
  intro known ds bi bd meta
  have hds : ds = dist k0.2 unk :: (ks.map fun ke => dist ke.2 unk) := by
    simp [ds, known]
  have hlen : ds.length = known.length := by simp [ds, known]
  have hspec := argmin_spec (dist k0.2 unk) (ks.map fun ke => dist ke.2 unk)
  rw [← hds] at hspec
  rw [hlen] at hspec
  refine ⟨MATCH_THRESHOLD_eq, hspec.1, hspec.2.1, hspec.2.2, rfl⟩

theorem matcher_selects_first_min_and_thresholds_witness :
    argmin [(1 : ℚ), 0, 0] < 3
    ∧ [(1 : ℚ), 0, 0].getD (argmin [(1 : ℚ), 0, 0]) 0 ≤ [(1 : ℚ), 0, 0].getD 2 0
    ∧ (∀ k, k < argmin [(1 : ℚ), 0, 0] →
        [(1 : ℚ), 0, 0].getD (argmin [(1 : ℚ), 0, 0]) 0 < [(1 : ℚ), 0, 0].getD k 0)
    ∧ match_step (fun e _ => e.getD 0 0) (fun _ => none) ⟨"d", "t", "i"⟩
        [(⟨1, 10, "a"⟩, [1]), (⟨2, 20, "b"⟩, [0]), (⟨3, 30, "c"⟩, [0])] []
        = some (⟨20, "Unknown", "-", "b", 0⟩, ⟨20, "d", "t", "present", "i"⟩) := by
  have h := matcher_selects_first_min_and_thresholds (fun e _ => e.getD 0 0) (fun _ => none)
      ⟨"d", "t", "i"⟩ (⟨1, 10, "a"⟩, [1]) [(⟨2, 20, "b"⟩, [0]), (⟨3, 30, "c"⟩, [0])] []
  exact ⟨h.2.1, h.2.2.1 2 (by decide), h.2.2.2.1, h.2.2.2.2.trans (by decide)⟩

/-! ## Lemmas about the liveness check -/

theorem fhm_short (frames : List (Option Gray)) (tp : Nat) (dt : Int)
    (h : frames.length < 2) : frames_have_motion frames tp dt = false := by
  simp [frames_have_motion, h]

theorem allSome_eq_none_of_mem {l : List (Option Gray)} (h : none ∈ l) :
    allSome l = none := by
  induction l with
  | nil => simp at h
  | cons a l ih =>
    match a with
    | none => rfl
    | some g =>
      have hl : none ∈ l := by
        rcases List.mem_cons.mp h with h1 | h1
        · exact absurd h1 (by simp)
        · exact h1
      simp [allSome, ih hl]

theorem allSome_map_some (gs : List Gray) : allSome (gs.map some) = some gs := by
  induction gs with
  | nil => rfl
  | cons g gs ih => simp [allSome, ih]

theorem anyPairMotion_iff (tp : Nat) (dt : Int) :
    ∀ gs : List Gray, (anyPairMotion tp dt gs = true ↔
      ∃ i, i + 1 < gs.length ∧ tp < motionCount dt (gs.getD i []) (gs.getD (i + 1) []))
  | [] => by
    constructor
    · intro h; exact absurd h (by simp [anyPairMotion])
    · rintro ⟨i, hi, _⟩; exact absurd hi (by simp)
  | [g] => by
    constructor
    · intro h; exact absurd h (by simp [anyPairMotion])
    · rintro ⟨i, hi, _⟩; simp at hi
  | a :: b :: t => by
    have hunf : anyPairMotion tp dt (a :: b :: t)
        = if tp < motionCount dt a b then true else anyPairMotion tp dt (b :: t) := rfl
    by_cases hab : tp < motionCount dt a b
    · rw [hunf, if_pos hab]
      constructor
      · intro _
        exact ⟨0, by simp only [List.length_cons]; omega, by simpa using hab⟩
      · intro _; rfl
    · rw [hunf, if_neg hab, anyPairMotion_iff tp dt (b :: t)]
      constructor
      · rintro ⟨i, hi, hcnt⟩
        refine ⟨i + 1, by simp only [List.length_cons] at hi ⊢; omega, ?_⟩
        simpa using hcnt
      · rintro ⟨i, hi, hcnt⟩
        match i with
        | 0 => exact absurd (by simpa using hcnt) hab
        | i + 1 =>
          refine ⟨i, by simp only [List.length_cons] at hi ⊢; omega, ?_⟩
          simpa using hcnt

theorem zipWith_self_eq_map {α β : Type} (f : α → α → β) :
    ∀ l : List α, List.zipWith f l l = l.map fun a => f a a
  | [] => rfl
  | a :: l => by simp [List.zipWith, zipWith_self_eq_map f l]

theorem rowDiffCount_self (dt : Int) (hdt : 0 ≤ dt) (r : List Int) :
    rowDiffCount dt r r = 0 := by
  unfold rowDiffCount
  rw [zipWith_self_eq_map]
  have h0 : ∀ x : Int, (if dt < |x - x| then (1 : Nat) else 0) = 0 := by
    intro x
    rw [if_neg]
    rw [sub_self, abs_zero]
    exact not_lt.mpr hdt
  rw [List.map_congr_left fun x _ => h0 x]
  simp

theorem motionCount_self (dt : Int) (hdt : 0 ≤ dt) (g : Gray) :
    motionCount dt g g = 0 := by
  unfold motionCount
  rw [zipWith_self_eq_map]
  rw [List.map_congr_left fun r _ => rowDiffCount_self dt hdt r]
  simp

/-- C3: the liveness check fails closed: with an empty frame list, fewer than
2 frames, or any frame failing to decode, `frames_have_motion` returns false
for every threshold setting - never true. -/
theorem frames_have_motion_fails_closed (frames : List (Option Gray))
    (tp : Nat) (dt : Int) (h : frames.length < 2 ∨ none ∈ frames) :
    frames_have_motion frames tp dt = false := by
  rcases h with h | h
  · exact fhm_short frames tp dt h
  · by_cases h2 : frames.length < 2
    · exact fhm_short frames tp dt h2
    · simp [frames_have_motion, h2, allSome_eq_none_of_mem h]

theorem frames_have_motion_fails_closed_witness :
    frames_have_motion [] 1000 30 = false
    ∧ frames_have_motion [some [[0]]] 1000 30 = false
    ∧ frames_have_motion [some [[0]], none, some [[5]]] 1000 30 = false :=
  ⟨frames_have_motion_fails_closed [] 1000 30 (Or.inl (by decide)),
   frames_have_motion_fails_closed [some [[0]]] 1000 30 (Or.inl (by decide)),
   frames_have_motion_fails_closed [some [[0]], none, some [[5]]] 1000 30 (Or.inr (by decide))⟩

/-- C4: for a sequence of at least 2 decodable frames (rectangular and of
uniform dimensions, as the image decoder produces), the check returns true iff
some consecutive grayscale pair has strictly more than `threshold_pixels`
pixels whose absolute luminance difference strictly exceeds `diff_threshold`;
in particular two identical frames give false (for a nonnegative per-pixel
threshold; the source uses 30). -/
theorem frames_have_motion_iff_consecutive_motion
    (gs : List Gray) (tp : Nat) (dt : Int)
    (h2 : 2 ≤ gs.length) (hdt : 0 ≤ dt)
    (_hrect : ∃ h w : Nat, ∀ g ∈ gs, g.length = h ∧ ∀ r ∈ g, r.length = w) :
    (frames_have_motion (gs.map some) tp dt = true ↔
      ∃ i, i + 1 < gs.length ∧ tp < motionCount dt (gs.getD i []) (gs.getD (i + 1) []))
    ∧ ∀ g : Gray, frames_have_motion [some g, some g] tp dt = false := by
  constructor
  · have hl : ¬ (gs.map some).length < 2 := by
      simp only [List.length_map]
      omega
    have heq : frames_have_motion (gs.map some) tp dt = anyPairMotion tp dt gs := by
      unfold frames_have_motion
      rw [if_neg hl, allSome_map_some]
    rw [heq]
    exact anyPairMotion_iff tp dt gs
  · intro g
    have heq : frames_have_motion [some g, some g] tp dt = anyPairMotion tp dt [g, g] := rfl
    have hunf : anyPairMotion tp dt [g, g]
        = if tp < motionCount dt g g then true else anyPairMotion tp dt [g] := rfl
    rw [heq, hunf, motionCount_self dt hdt g]
    have : ¬ tp < 0 := by omega
    rw [if_neg this]
    rfl

theorem frames_have_motion_iff_consecutive_motion_witness :
    (frames_have_motion [some [[0, 0]], some [[100, 100]]] 1 30 = true
      ↔ ∃ i, i + 1 < 2 ∧ 1 < motionCount 30 ([[[0, 0]], [[100, 100]]].getD i [])
            ([[[0, 0]], [[100, 100]]].getD (i + 1) []))
    ∧ frames_have_motion [some [[7]], some [[7]]] 1 30 = false := by
  have h := frames_have_motion_iff_consecutive_motion [[[0, 0]], [[100, 100]]] 1 30
      (by decide) (by decide) ⟨1, 2, by decide⟩
  exact ⟨h.1, h.2 [[7]]⟩

/-! ## Reduction helpers for the request handler -/

theorem api_mark_attendance_frames_eq (extract : String → Option (List Emb))
    (dist : Emb → Emb → ℚ) (students : Nat → Option (String × String))
    (photos : List PhotoRow) (fs : List RawFrame) (image : Option RawImage)
    (cache : Cache) (att : List AttRow) (now : Now) :
    api_mark_attendance true extract dist students photos (some fs) image cache att now
      = if 2 ≤ fs.length then
          (if frames_have_motion (fs.map RawFrame.gray) 1000 30 = false then
            (MarkResp.spoofRejected, att, cache)
           else
            if (fs.getD (fs.length / 2) default).rgb_ok = false then
              (MarkResp.livenessError, att, cache)
            else mark_phase true extract dist students photos now cache att
                   ((fs.getD (fs.length / 2) default).faceEncs) true)
        else
          (match image with
           | some img =>
             if img.rgb_ok = false then (MarkResp.imageDecodeError, att, cache)
             else mark_phase true extract dist students photos now cache att img.faceEncs false
           | none => (MarkResp.noInput, att, cache)) := rfl

theorem api_mark_attendance_noframes_eq (extract : String → Option (List Emb))
    (dist : Emb → Emb → ℚ) (students : Nat → Option (String × String))
    (photos : List PhotoRow) (image : Option RawImage)
    (cache : Cache) (att : List AttRow) (now : Now) :
    api_mark_attendance true extract dist students photos none image cache att now
      = (match image with
         | some img =>
           if img.rgb_ok = false then (MarkResp.imageDecodeError, att, cache)
           else mark_phase true extract dist students photos now cache att img.faceEncs false
         | none => (MarkResp.noInput, att, cache)) := rfl

theorem mark_phase_eq (faceLib : Bool) (extract : String → Option (List Emb))
    (dist : Emb → Emb → ℚ) (students : Nat → Option (String × String))
    (photos : List PhotoRow) (now : Now) (cache : Cache) (att : List AttRow)
    (encs : List Emb) (lc : Bool) (h : encs ≠ []) :
    mark_phase faceLib extract dist students photos now cache att encs lc
      = (MarkResp.ok ((encs.filterMap (match_step dist students now
            (build_gallery faceLib extract photos cache).1)).map Prod.fst) lc,
         att ++ (encs.filterMap (match_step dist students now
            (build_gallery faceLib extract photos cache).1)).map Prod.snd,
         (build_gallery faceLib extract photos cache).2) := by
  unfold mark_phase
  rw [if_neg (by simpa [List.isEmpty_iff] using h)]

theorem match_step_nil (dist : Emb → Emb → ℚ) (students : Nat → Option (String × String))
    (now : Now) (unk : Emb) : match_step dist students now [] unk = none := rfl

theorem filterMap_match_step_nil (dist : Emb → Emb → ℚ)
    (students : Nat → Option (String × String)) (now : Now) (l : List Emb) :
    l.filterMap (match_step dist students now []) = [] := by
  induction l with
  | nil => rfl
  | cons e l ih => simp [List.filterMap_cons, match_step_nil, ih]

/-- C5: when no enrolled photo yields an embedding (the gallery is empty), the
request still succeeds for every query encoding: the response is the normal
success response with an empty match list, no attendance row is inserted, and
no error is raised. -/
theorem empty_gallery_skips_without_error
    (extract : String → Option (List Emb)) (dist : Emb → Emb → ℚ)
    (students : Nat → Option (String × String)) (photos : List PhotoRow)
    (img : RawImage) (cache : Cache) (att : List AttRow) (now : Now)
    (hg : (build_gallery true extract photos cache).1 = [])
    (hrgb : img.rgb_ok = true) (hne : img.faceEncs ≠ []) :
    api_mark_attendance true extract dist students photos none (some img) cache att now
      = (MarkResp.ok [] false, att, (build_gallery true extract photos cache).2) := by
  rw [api_mark_attendance_noframes_eq]
  show (if img.rgb_ok = false then (MarkResp.imageDecodeError, att, cache)
        else mark_phase true extract dist students photos now cache att img.faceEncs false) = _
  rw [if_neg (by simp [hrgb])]
  rw [mark_phase_eq true extract dist students photos now cache att img.faceEncs false hne]
  rw [hg, filterMap_match_step_nil]
  simp

theorem empty_gallery_skips_without_error_witness :
    api_mark_attendance true (fun _ => none) (fun _ _ => 0) (fun _ => none) [⟨1, 5, "p"⟩]
        none (some ⟨true, [[0]]⟩) [] [] ⟨"d", "t", "i"⟩
      = (MarkResp.ok [] false, [], []) := by
  have h := empty_gallery_skips_without_error (fun _ => none) (fun _ _ => 0) (fun _ => none)
      [⟨1, 5, "p"⟩] ⟨true, [[0]]⟩ [] [] ⟨"d", "t", "i"⟩ (by decide) rfl (by decide)
  exact h.trans (by decide)

/-! ## Cache lemmas -/

theorem cacheLookup_evict (cache : Cache) (k : String) :
    cacheLookup (cacheEvict cache k) k = none := by
  induction cache with
  | nil => rfl
  | cons kv cache ih =>
    by_cases h : kv.1 == k
    · have hb : (kv.1 != k) = false := by simp [bne, h]
      simpa [cacheEvict, List.filter_cons, hb] using ih
    · have hb : (kv.1 != k) = true := by
        simp only [bne]
        simpa using h
      have hf : (kv.1 == k) = false := by simpa using h
      simp only [cacheEvict, List.filter_cons, hb, if_pos] at ih ⊢
      simp only [cacheLookup, List.find?, hf] at ih ⊢
      exact ih

/-- C7: `compute_face_encoding_from_file` caches only successful extractions.
On a cache miss where the extractor finds no face, the result is absent and
the cache is left unchanged, so a later call for the same path invokes the
extractor again (here: a second extractor that now finds a face succeeds and
caches); and after evicting a key, the next lookup for it recomputes from the
extractor rather than returning any previously cached value. -/
theorem cache_stores_only_on_success_and_recomputes
    (extract extract2 : String → Option (List Emb)) (cache : Cache) (path : String)
    (hmiss : cacheLookup cache path = none)
    (hnoface : extract path = some []) :
    compute_face_encoding_from_file true extract cache path = (none, cache)
    ∧ (∀ e es, extract2 path = some (e :: es) →
        compute_face_encoding_from_file true extract2 cache path
          = (some e, cacheInsert cache path e))
    ∧ (∀ (cache2 : Cache) (e : Emb) (es : List Emb), extract2 path = some (e :: es) →
        compute_face_encoding_from_file true extract2 (cacheEvict cache2 path) path
          = (some e, cacheInsert (cacheEvict cache2 path) path e)) := by
  refine ⟨?_, ?_, ?_⟩
  · unfold compute_face_encoding_from_file
    rw [if_neg (by simp)]
    rw [hmiss, hnoface]
  · intro e es h
    unfold compute_face_encoding_from_file
    rw [if_neg (by simp)]
    rw [hmiss, h]
  · intro cache2 e es h
    unfold compute_face_encoding_from_file
    rw [if_neg (by simp)]
    rw [cacheLookup_evict cache2 path, h]

theorem cache_stores_only_on_success_and_recomputes_witness :
    compute_face_encoding_from_file true (fun _ => some []) [("q", [5])] "p"
      = (none, [("q", [5])])
    ∧ compute_face_encoding_from_file true (fun _ => some [[3]]) [("q", [5])] "p"
      = (some [3], cacheInsert [("q", [5])] "p" [3])
    ∧ compute_face_encoding_from_file true (fun _ => some [[3]])
        (cacheEvict [("p", [9]), ("q", [5])] "p") "p"
      = (some [3], cacheInsert (cacheEvict [("p", [9]), ("q", [5])] "p") "p" [3]) := by
  have h := cache_stores_only_on_success_and_recomputes (fun _ => some [])
      (fun _ => some [[3]]) [("q", [5])] "p" (by decide) rfl
  exact ⟨h.1, h.2.1 [3] [] rfl, h.2.2 [("p", [9]), ("q", [5])] [3] [] rfl⟩

/-- C2 (violated by the code): after `api_replace_photo` the replaced photo
path KEEPS its encoding-cache entry (the handler never touches the cache for
the old paths), and `api_delete_student` misses a cached photo whose filename
comes from the roll number (as `api_add_student_with_photo` creates) because
its substring heuristic only matches keys containing the numeric student id.
Here student 7 has a stale entry after replacement, and a student-7 photo
named `AB.png` survives deletion. -/
theorem replace_and_delete_leave_stale_cache_entries :
    cacheLookup
        (api_replace_photo_cache true (fun _ => none)
          [("/app/static/photos/7_20240101000000.png", [0])]
          "/app/static/photos/7_20250101000000.png")
        "/app/static/photos/7_20240101000000.png" = some [0]
    ∧ cacheLookup
        (api_delete_student_cache_clear 7 [("/app/static/photos/AB.png", [0])])
        "/app/static/photos/AB.png" = some [0]
    ∧ cacheLookup
        (api_delete_student_cache_clear 7 [("/app/static/photos/7_20240101000000.png", [0])])
        "/app/static/photos/7_20240101000000.png" = none := by
  refine ⟨rfl, rfl, rfl⟩

/-- C8 counterexample: a request carrying exactly one frame and no single
image is answered with the generic 400 input rejection ("Provide frames or
image"), not a structured not-live result - the handler only ever calls
the liveness check with at least 2 frames. -/
theorem insufficient_frames_rejected_counterexample :
    api_mark_attendance true (fun _ => none) (fun _ _ => 0) (fun _ => none) []
        (some [⟨some [[0]], true, []⟩]) none [] [] ⟨"d", "t", "i"⟩
      = (MarkResp.noInput, [], [])
    ∧ MarkResp.keys MarkResp.noInput = ["success", "message"] :=
  ⟨rfl, rfl⟩

/-- C8 amended: a request with fewer than 2 frames never has liveness
evaluated at the handler level: with no single image it is rejected with the
generic 400 input error; the fewer-than-2 fail-closed behavior (false) exists
only inside `frames_have_motion` itself, which would return false on these
frames for every threshold. -/
theorem insufficient_frames_amended
    (extract : String → Option (List Emb)) (dist : Emb → Emb → ℚ)
    (students : Nat → Option (String × String)) (photos : List PhotoRow)
    (fs : List RawFrame) (cache : Cache) (att : List AttRow) (now : Now)
    (hlt : fs.length < 2) :
    api_mark_attendance true extract dist students photos (some fs) none cache att now
      = (MarkResp.noInput, att, cache)
    ∧ ∀ tp dt, frames_have_motion (fs.map RawFrame.gray) tp dt = false := by
  constructor
  · rw [api_mark_attendance_frames_eq]
    rw [if_neg (by omega)]
  · intro tp dt
    exact fhm_short (fs.map RawFrame.gray) tp dt (by simpa using hlt)

theorem insufficient_frames_amended_witness :
    api_mark_attendance true (fun _ => none) (fun _ _ => 0) (fun _ => none) []
        (some []) none [] [] ⟨"d", "t", "i"⟩ = (MarkResp.noInput, [], [])
    ∧ frames_have_motion (([] : List RawFrame).map RawFrame.gray) 1000 30 = false := by
  have h := insufficient_frames_amended (fun _ => none) (fun _ _ => 0) (fun _ => none) []
      ([] : List RawFrame) [] [] ⟨"d", "t", "i"⟩ (by decide)
  exact ⟨h.1, h.2 1000 30⟩

set_option maxRecDepth 100000 in
/-- C9 counterexample: a frames request that passes the motion check (so
liveness WAS evaluated) but shows no face receives the no-faces success
response, whose JSON has keys success, matched, message - and NO
liveness_checked flag, contradicting the claim that every successful response
carries the flag. -/
theorem no_faces_response_lacks_liveness_flag :
    (api_mark_attendance true (fun _ => none) (fun _ _ => 0) (fun _ => none) []
        (some [⟨some [List.replicate 1001 0], true, []⟩,
               ⟨some [List.replicate 1001 100], true, []⟩]) none [] [] ⟨"d", "t", "i"⟩).1
      = MarkResp.noFaces
    ∧ "liveness_checked" ∉ MarkResp.keys MarkResp.noFaces := by
  refine ⟨rfl, by decide⟩

/-- C9 amended: the liveness_checked flag is present exactly on the final
matched response; the no-faces success response does not include it. -/
theorem liveness_flag_on_match_responses
    (faceLib : Bool) (extract : String → Option (List Emb)) (dist : Emb → Emb → ℚ)
    (students : Nat → Option (String × String)) (photos : List PhotoRow)
    (frames : Option (List RawFrame)) (image : Option RawImage)
    (cache : Cache) (att : List AttRow) (now : Now) :
    (∀ ms lc, (api_mark_attendance faceLib extract dist students photos frames image cache att now).1
        = MarkResp.ok ms lc →
        "liveness_checked" ∈ MarkResp.keys
          (api_mark_attendance faceLib extract dist students photos frames image cache att now).1)
    ∧ ((api_mark_attendance faceLib extract dist students photos frames image cache att now).1
        = MarkResp.noFaces →
        "liveness_checked" ∉ MarkResp.keys
          (api_mark_attendance faceLib extract dist students photos frames image cache att now).1) := by
  constructor
  · intro ms lc h
    rw [h]
    show "liveness_checked" ∈ ["success", "matched", "liveness_checked"]
    decide
  · intro h
    rw [h]
    decide

theorem liveness_flag_on_match_responses_witness :
    "liveness_checked" ∈ MarkResp.keys (api_mark_attendance true (fun _ => none) (fun _ _ => 0)
        (fun _ => none) [] none (some ⟨true, [[0]]⟩) [] [] ⟨"d", "t", "i"⟩).1 := by
  have h := liveness_flag_on_match_responses true (fun _ => none) (fun _ _ => 0) (fun _ => none)
      [] none (some ⟨true, [[0]]⟩) [] [] ⟨"d", "t", "i"⟩
  exact h.1 [] false rfl

/-! ## Attendance-append lemmas -/

theorem match_step_pair (dist : Emb → Emb → ℚ) (students : Nat → Option (String × String))
    (now : Now) (known : List (PhotoRow × Emb)) (unk : Emb) (pr : MatchEntry × AttRow)
    (h : match_step dist students now known unk = some pr) :
    pr.2 = ⟨pr.1.student_id, now.date, now.time_in, "present", now.iso⟩ := by
  simp only [match_step] at h
  split at h
  · exact absurd h (by simp)
  · split at h
    · obtain rfl := Option.some_inj.mp h
      rfl
    · exact absurd h (by simp)

theorem filterMap_snd_eq (dist : Emb → Emb → ℚ) (students : Nat → Option (String × String))
    (now : Now) (known : List (PhotoRow × Emb)) (l : List Emb) :
    (l.filterMap (match_step dist students now known)).map Prod.snd
      = ((l.filterMap (match_step dist students now known)).map Prod.fst).map
          (fun m => AttRow.mk m.student_id now.date now.time_in "present" now.iso) := by
  induction l with
  | nil => rfl
  | cons e l ih =>
    rw [List.filterMap_cons]
    cases h : match_step dist students now known e with
    | none => exact ih
    | some pr =>
      simp only [List.map_cons]
      rw [match_step_pair dist students now known e pr h]
      rw [ih]

theorem mark_phase_att_split (faceLib : Bool) (extract : String → Option (List Emb))
    (dist : Emb → Emb → ℚ) (students : Nat → Option (String × String))
    (photos : List PhotoRow) (now : Now) (cache : Cache)
    (encs : List Emb) (lc : Bool) (att : List AttRow) :
    mark_phase faceLib extract dist students photos now cache att encs lc
      = ((mark_phase faceLib extract dist students photos now cache [] encs lc).1,
         att ++ (mark_phase faceLib extract dist students photos now cache [] encs lc).2.1,
         (mark_phase faceLib extract dist students photos now cache [] encs lc).2.2) := by
  unfold mark_phase
  by_cases h : encs.isEmpty
  · rw [if_pos h, if_pos h]
    simp
  · rw [if_neg h, if_neg h]
    simp

theorem mark_phase_ok_snd (faceLib : Bool) (extract : String → Option (List Emb))
    (dist : Emb → Emb → ℚ) (students : Nat → Option (String × String))
    (photos : List PhotoRow) (now : Now) (cache : Cache)
    (encs : List Emb) (lc : Bool) (ms : List MatchEntry) (lc2 : Bool)
    (h : (mark_phase faceLib extract dist students photos now cache [] encs lc).1
        = MarkResp.ok ms lc2) :
    (mark_phase faceLib extract dist students photos now cache [] encs lc).2.1
      = ms.map (fun m => AttRow.mk m.student_id now.date now.time_in "present" now.iso) := by
  by_cases he : encs.isEmpty
  · unfold mark_phase at h
    rw [if_pos he] at h
    exact absurd h (by simp)
  · unfold mark_phase at h ⊢
    rw [if_neg he] at h ⊢
    have h' : MarkResp.ok ((encs.filterMap (match_step dist students now
        (build_gallery faceLib extract photos cache).1)).map Prod.fst) lc
        = MarkResp.ok ms lc2 := h
    injection h' with h1 h2
    show [] ++ (encs.filterMap (match_step dist students now
        (build_gallery faceLib extract photos cache).1)).map Prod.snd
      = ms.map (fun m => AttRow.mk m.student_id now.date now.time_in "present" now.iso)
    rw [List.nil_append, ← h1]
    exact filterMap_snd_eq dist students now (build_gallery faceLib extract photos cache).1 encs

theorem api_mark_attendance_att_split (faceLib : Bool) (extract : String → Option (List Emb))
    (dist : Emb → Emb → ℚ) (students : Nat → Option (String × String))
    (photos : List PhotoRow) (frames : Option (List RawFrame)) (image : Option RawImage)
    (cache : Cache) (now : Now) :
    (∃ resp, (∀ att, api_mark_attendance faceLib extract dist students photos frames image cache att now
        = (resp, att, cache)) ∧ ∀ ms lc, resp ≠ MarkResp.ok ms lc)
    ∨ (∃ encs lc, ∀ att, api_mark_attendance faceLib extract dist students photos frames image cache att now
        = mark_phase faceLib extract dist students photos now cache att encs lc) := by
  by_cases hf : faceLib = false
  · left
    refine ⟨MarkResp.faceLibUnavailable, fun att => ?_, fun ms lc => by simp⟩
    unfold api_mark_attendance
    rw [if_pos hf]
  · have hft : faceLib = true := by
      revert hf
      cases faceLib <;> simp
    subst hft
    cases frames with
    | none =>
      cases image with
      | none =>
        left
        refine ⟨MarkResp.noInput, fun att => ?_, fun ms lc => by simp⟩
        rw [api_mark_attendance_noframes_eq]
      | some img =>
        by_cases hr : img.rgb_ok = false
        · left
          refine ⟨MarkResp.imageDecodeError, fun att => ?_, fun ms lc => by simp⟩
          rw [api_mark_attendance_noframes_eq]
          show (if img.rgb_ok = false then (MarkResp.imageDecodeError, att, cache)
                else mark_phase true extract dist students photos now cache att img.faceEncs false)
            = (MarkResp.imageDecodeError, att, cache)
          rw [if_pos hr]
        · right
          refine ⟨img.faceEncs, false, fun att => ?_⟩
          rw [api_mark_attendance_noframes_eq]
          show (if img.rgb_ok = false then (MarkResp.imageDecodeError, att, cache)
                else mark_phase true extract dist students photos now cache att img.faceEncs false)
            = mark_phase true extract dist students photos now cache att img.faceEncs false
          rw [if_neg hr]
    | some fs =>
      by_cases h2 : 2 ≤ fs.length
      · by_cases hm : frames_have_motion (fs.map RawFrame.gray) 1000 30 = false
        · left
          refine ⟨MarkResp.spoofRejected, fun att => ?_, fun ms lc => by simp⟩
          rw [api_mark_attendance_frames_eq, if_pos h2, if_pos hm]
        · by_cases hr : (fs.getD (fs.length / 2) default).rgb_ok = false
          · left
            refine ⟨MarkResp.livenessError, fun att => ?_, fun ms lc => by simp⟩
            rw [api_mark_attendance_frames_eq, if_pos h2, if_neg hm, if_pos hr]
          · right
            refine ⟨(fs.getD (fs.length / 2) default).faceEncs, true, fun att => ?_⟩
            rw [api_mark_attendance_frames_eq, if_pos h2, if_neg hm, if_neg hr]
      · cases image with
        | none =>
          left
          refine ⟨MarkResp.noInput, fun att => ?_, fun ms lc => by simp⟩
          rw [api_mark_attendance_frames_eq, if_neg h2]
        | some img =>
          by_cases hr : img.rgb_ok = false
          · left
            refine ⟨MarkResp.imageDecodeError, fun att => ?_, fun ms lc => by simp⟩
            rw [api_mark_attendance_frames_eq, if_neg h2]
            show (if img.rgb_ok = false then (MarkResp.imageDecodeError, att, cache)
                  else mark_phase true extract dist students photos now cache att img.faceEncs false)
              = (MarkResp.imageDecodeError, att, cache)
            rw [if_pos hr]
          · right
            refine ⟨img.faceEncs, false, fun att => ?_⟩
            rw [api_mark_attendance_frames_eq, if_neg h2]
            show (if img.rgb_ok = false then (MarkResp.imageDecodeError, att, cache)
                  else mark_phase true extract dist students photos now cache att img.faceEncs false)
              = mark_phase true extract dist students photos now cache att img.faceEncs false
            rw [if_neg hr]

/-- C6: the attendance recorder performs no deduplication: the handler never
reads the existing attendance table - response and cache are independent of
it, the new rows are appended to whatever rows were already there (so a
student who already has an event for the same date gets another one), and on
the success response every match contributes exactly one new
(student_id, date, time_in, present, created_at) row. -/
theorem attendance_no_deduplication (faceLib : Bool) (extract : String → Option (List Emb))
    (dist : Emb → Emb → ℚ) (students : Nat → Option (String × String))
    (photos : List PhotoRow) (frames : Option (List RawFrame)) (image : Option RawImage)
    (cache : Cache) (att : List AttRow) (now : Now) :
    ((api_mark_attendance faceLib extract dist students photos frames image cache att now).1
      = (api_mark_attendance faceLib extract dist students photos frames image cache [] now).1)
    ∧ ((api_mark_attendance faceLib extract dist students photos frames image cache att now).2.1
      = att ++ (api_mark_attendance faceLib extract dist students photos frames image cache [] now).2.1)
    ∧ ((api_mark_attendance faceLib extract dist students photos frames image cache att now).2.2
      = (api_mark_attendance faceLib extract dist students photos frames image cache [] now).2.2)
    ∧ (∀ ms lc, (api_mark_attendance faceLib extract dist students photos frames image cache att now).1
        = MarkResp.ok ms lc →
        (api_mark_attendance faceLib extract dist students photos frames image cache [] now).2.1
          = ms.map fun m => AttRow.mk m.student_id now.date now.time_in "present" now.iso) := by
  rcases api_mark_attendance_att_split faceLib extract dist students photos frames image cache now with
    ⟨resp, hall, hnot⟩ | ⟨encs, lc0, hall⟩
  · rw [hall att, hall []]
    refine ⟨rfl, by simp, rfl, ?_⟩
    intro ms lc h
    exact absurd (show resp = MarkResp.ok ms lc from h) (hnot ms lc)
  · rw [hall att, hall []]
    have hsplit := mark_phase_att_split faceLib extract dist students photos now cache encs lc0 att
    refine ⟨?_, ?_, ?_, ?_⟩
    · rw [hsplit]
    · rw [hsplit]
    · rw [hsplit]
    · intro ms lc h
      rw [hsplit] at h
      exact mark_phase_ok_snd faceLib extract dist students photos now cache encs lc0 ms lc h

theorem attendance_no_deduplication_witness :
    (api_mark_attendance true (fun _ => some [[0]]) (fun _ _ => 0) (fun _ => some ("A", "R1"))
        [⟨1, 5, "p"⟩] none (some ⟨true, [[0]]⟩) []
        [⟨5, "2026-10-12", "08:00:00", "present", "x"⟩] ⟨"2026-10-12", "09:00:00", "y"⟩).2.1
      = [⟨5, "2026-10-12", "08:00:00", "present", "x"⟩]
        ++ ([⟨5, "A", "R1", "p", 0⟩] : List MatchEntry).map
            (fun m => AttRow.mk m.student_id "2026-10-12" "09:00:00" "present" "y") := by
  have h := attendance_no_deduplication true (fun _ => some [[0]]) (fun _ _ => 0)
      (fun _ => some ("A", "R1")) [⟨1, 5, "p"⟩] none (some ⟨true, [[0]]⟩) []
      [⟨5, "2026-10-12", "08:00:00", "present", "x"⟩] ⟨"2026-10-12", "09:00:00", "y"⟩
  rw [h.2.1, h.2.2.2 [⟨5, "A", "R1", "p", 0⟩] false (by decide)]

/-- C10: face matching runs on exactly the middle frame,
`frames[len(frames)//2]`. Two frame lists that agree on every grayscale
decode and on the middle frame produce identical outcomes - face encodings
present only in the other frames are never consulted - and when the motion
gate passes and the middle frame re-decodes, the request is exactly the match
phase applied to the middle frame's encodings with the liveness flag set. -/
theorem matching_uses_middle_frame_only
    (extract : String → Option (List Emb)) (dist : Emb → Emb → ℚ)
    (students : Nat → Option (String × String)) (photos : List PhotoRow)
    (image : Option RawImage) (cache : Cache) (att : List AttRow) (now : Now)
    (fs fs2 : List RawFrame)
    (hgray : fs2.map RawFrame.gray = fs.map RawFrame.gray)
    (hmid : fs2.getD (fs2.length / 2) default = fs.getD (fs.length / 2) default) :
    (api_mark_attendance true extract dist students photos (some fs2) image cache att now
      = api_mark_attendance true extract dist students photos (some fs) image cache att now)
    ∧ (2 ≤ fs.length →
        frames_have_motion (fs.map RawFrame.gray) 1000 30 = true →
        (fs.getD (fs.length / 2) default).rgb_ok = true →
        api_mark_attendance true extract dist students photos (some fs) image cache att now
          = mark_phase true extract dist students photos now cache att
              ((fs.getD (fs.length / 2) default).faceEncs) true) := by
  have hlen : fs2.length = fs.length := by
    have h := congrArg List.length hgray
    simpa using h
  rw [hlen] at hmid
  constructor
  · rw [api_mark_attendance_frames_eq, api_mark_attendance_frames_eq, hgray, hlen, hmid]
  · intro h2 hm hr
    rw [api_mark_attendance_frames_eq, if_pos h2,
        if_neg (by rw [hm]; simp), if_neg (by rw [hr]; simp)]

set_option maxRecDepth 100000 in
theorem matching_uses_middle_frame_only_witness :
    (api_mark_attendance true (fun _ => none) (fun _ _ => 0) (fun _ => none) []
        (some [⟨some [List.replicate 1001 0], true, [[9]]⟩,
               ⟨some [List.replicate 1001 100], true, [[0]]⟩])
        none [] [] ⟨"d", "t", "i"⟩
      = api_mark_attendance true (fun _ => none) (fun _ _ => 0) (fun _ => none) []
        (some [⟨some [List.replicate 1001 0], true, []⟩,
               ⟨some [List.replicate 1001 100], true, [[0]]⟩])
        none [] [] ⟨"d", "t", "i"⟩)
    ∧ api_mark_attendance true (fun _ => none) (fun _ _ => 0) (fun _ => none) []
        (some [⟨some [List.replicate 1001 0], true, []⟩,
               ⟨some [List.replicate 1001 100], true, [[0]]⟩])
        none [] [] ⟨"d", "t", "i"⟩
      = mark_phase true (fun _ => none) (fun _ _ => 0) (fun _ => none) [] ⟨"d", "t", "i"⟩
          [] [] [[0]] true := by
  have h := matching_uses_middle_frame_only (fun _ => none) (fun _ _ => 0) (fun _ => none) []
      none [] [] ⟨"d", "t", "i"⟩
      [⟨some [List.replicate 1001 0], true, []⟩, ⟨some [List.replicate 1001 100], true, [[0]]⟩]
      [⟨some [List.replicate 1001 0], true, [[9]]⟩, ⟨some [List.replicate 1001 100], true, [[0]]⟩]
      rfl rfl
  exact ⟨h.1, h.2 (by decide) (by decide) rfl⟩
